import Mathlib

/-!
Verification of the DeFi dashboard's data-shaping logic.

This file shallowly embeds the computational core of the repository:

* the `/api/pools` route handler (allow-list filtering, categorization,
  30-day trailing-average APY, per-pool failure degradation);
* the pool-detail page's client-side processing (sample filtering and
  sorting, its 30-day trailing average, and the monthly resampler).

JavaScript `Date` instants are modelled as integer milliseconds since the
Unix epoch in a fixed zero-offset (UTC) time zone; the proleptic Gregorian
calendar used by `Date` and by the date-fns functions `startOfMonth`,
`subMonths` and `format` is implemented from scratch below
(`civilDays` / `civilFromDays`) and verified.  JavaScript numbers are
modelled by `JNum`: exact rationals for finite values plus the three
non-finite values NaN, +Infinity and -Infinity, with IEEE propagation
rules for the additions and divisions the code performs (no rounding is
involved in any claim).  Upstream fetches are modelled as oracles passed
as arguments; a failed fetch is `none`.
-/

/-- Model of a JavaScript number as used by this code base: an exact
rational for finite values, plus NaN and the two infinities. -/
inductive JNum where
  | num (q : ℚ)
  | nan
  | posInf
  | negInf
deriving DecidableEq

/-- JavaScript `+` on numbers (IEEE propagation; finite addition exact). -/
def JNum.add : JNum → JNum → JNum
  | .nan, _ => .nan
  | _, .nan => .nan
  | .posInf, .negInf => .nan
  | .negInf, .posInf => .nan
  | .posInf, _ => .posInf
  | _, .posInf => .posInf
  | .negInf, _ => .negInf
  | _, .negInf => .negInf
  | .num a, .num b => .num (a + b)

/-- JavaScript `/` by a (nonnegative integer) array length. -/
def JNum.divNat : JNum → Nat → JNum
  | .nan, _ => .nan
  | .posInf, _ => .posInf
  | .negInf, _ => .negInf
  | .num q, 0 => if 0 < q then .posInf else if q < 0 then .negInf else .nan
  | .num q, (n + 1) => .num (q / (n + 1))

/-! ## The proleptic Gregorian calendar of JavaScript `Date`

Days are counted from 1970-01-01.  `civilDays` converts a calendar date to
its day number; `civilFromDays` converts back, decomposing the day number
hierarchically into 400-year eras, centuries, 4-year blocks and years of
the March-based shifted calendar. -/

/-- Gregorian leap-year rule. -/
def isLeap (y : Int) : Bool := y % 4 == 0 && (y % 100 != 0 || y % 400 == 0)

/-- Number of days of month `m` (1..12) of year `y`. -/
def daysInMonth (y m : Int) : Int :=
  if m = 2 then (if isLeap y then 29 else 28)
  else if m = 4 ∨ m = 6 ∨ m = 9 ∨ m = 11 then 30
  else 31

/-- Day offset of shifted month `mp` (0 = March .. 11 = February) within a
March-based year. -/
def monthOff (mp : Int) : Int := (153 * mp + 2) / 5

/-- Day number (from 0000-03-01) of the start of March-based shifted year
`n`. -/
def ysS (n : Int) : Int := 365 * n + n / 4 - n / 100 + n / 400

/-- Day number since 1970-01-01 of the calendar date `(y, m, d)`. -/
def civilDays (y m d : Int) : Int :=
  let yS := y - (if m ≤ 2 then 1 else 0)
  let mp := if m ≤ 2 then m + 9 else m - 3
  ysS yS + monthOff mp + (d - 1) - 719468

/-- Split a day-of-era (0..146096) into the year-of-era (0..399) and the
day-of-year (0..365) of the March-based calendar. -/
def yoeDoy (doe : Int) : Int × Int :=
  let c := if doe / 36524 ≥ 4 then 3 else doe / 36524
  let doc := doe - 36524 * c
  let q := doc / 1461
  let dob := doc - 1461 * q
  let yy := if dob / 365 ≥ 4 then 3 else dob / 365
  (100 * c + 4 * q + yy, dob - 365 * yy)

/-- Calendar date `(y, m, d)` of a day number since 1970-01-01. -/
def civilFromDays (z : Int) : Int × Int × Int :=
  let zS := z + 719468
  let era := zS / 146097
  let doe := zS % 146097
  let p := yoeDoy doe
  let yS := 400 * era + p.1
  let mp := (5 * p.2 + 2) / 153
  let d := p.2 - monthOff mp + 1
  let m := if mp ≤ 9 then mp + 3 else mp - 9
  (yS + (if m ≤ 2 then 1 else 0), m, d)

/-- Milliseconds per day. -/
def msPerDay : Int := 86400000

/-- date-fns `startOfMonth`: first instant of the month of `t` (ms). -/
def startOfMonthMs (t : Int) : Int :=
  let c := civilFromDays (t / msPerDay)
  civilDays c.1 c.2.1 1 * msPerDay

/-- date-fns `subMonths`: same day-of-month (clamped to the target month's
last day) and time of day, `i` months earlier. -/
def subMonthsMs (t : Int) (i : Int) : Int :=
  let tod := t % msPerDay
  let c := civilFromDays (t / msPerDay)
  let idx := 12 * c.1 + (c.2.1 - 1) - i
  let y2 := idx / 12
  let m2 := idx % 12 + 1
  let d2 := min c.2.2 (daysInMonth y2 m2)
  civilDays y2 m2 d2 * msPerDay + tod

/-- The `(year, month)` pair rendered by date-fns `format(·, "MMM yyyy")`;
the rendering is injective in this pair, so the pair itself models the
month label carried by chart points. -/
structure MonthLabel where
  year : Int
  month : Int
deriving DecidableEq

/-- Month label of a timestamp given in seconds, as produced by
`format(new Date(ts * 1000), "MMM yyyy")`. -/
def monthLabelOfSec (ts : Int) : MonthLabel :=
  let c := civilFromDays (ts * 1000 / msPerDay)
  ⟨c.1, c.2.1⟩

/-! ## The `/api/pools` route handler (`app/api/pools/route.ts`) -/

/-- One entry of the upstream historical series `{ timestamp, apy }`.  The
timestamp string is modelled pre-parsed: `none` is an absent timestamp
(for which `new Date(undefined)` is an Invalid Date, so every `>=`
comparison on it is false); `some t` is the parsed instant in ms. -/
structure HistEntry where
  timestamp : Option Int
  apy : JNum
deriving DecidableEq

/-- The 30-day trailing-average computation of the pools route:
`thirtyDaysAgo = new Date(Date.now() - 30*24*60*60*1000)`, filter
`new Date(entry.timestamp) >= thirtyDaysAgo`, then
`reduce((sum, e) => sum + e.apy, 0) / length`, or `null` when the
filtered list is empty. -/
def apyMean30dRoute (entries : List HistEntry) (nowMs : Int) : Option JNum :=
  let thirtyDaysAgo := nowMs - 30 * 24 * 60 * 60 * 1000
  let recentData := entries.filter (fun e =>
    match e.timestamp with
    | none => false
    | some t => decide (thirtyDaysAgo ≤ t))
  if recentData.length > 0 then
    some ((recentData.foldl (fun s e => s.add e.apy) (JNum.num 0)).divNat recentData.length)
  else none

/-- Upstream record of the DeFiLlama `/pools` listing. -/
structure UpstreamPool where
  pool : String
  chain : String
  project : String
  symbol : Option String
  tvlUsd : Option JNum
  apy : Option JNum

/-- The `Pool` interface of the route's response. -/
structure Pool where
  pool : String
  chain : String
  project : String
  symbol : String
  tvlUsd : Option JNum
  apy : Option JNum
  apyMean30d : Option JNum
  category : String
deriving DecidableEq

/-- ASCII lowercasing of a character, as `String.prototype.toLowerCase`
acts on the ASCII range (the only range the matched identifiers use). -/
def lowerChar (c : Char) : Char :=
  if 'A' ≤ c ∧ c ≤ 'Z' then Char.ofNat (c.toNat + 32) else c

/-- `project.toLowerCase()` on the model alphabet. -/
def lowerStr (s : String) : String := ⟨s.data.map lowerChar⟩

/-- The category ternary of the route's `.map`. -/
def categoryOf (project : String) : String :=
  if lowerStr project = "aave-v3" ∨ lowerStr project = "compound-v3" ∨
      lowerStr project = "maple" then "Lending"
  else if lowerStr project = "lido" ∨ lowerStr project = "binance-staked-eth" ∨
      lowerStr project = "stader" then "Liquid Staking"
  else "Yield Aggregator"

/-- The fixed allow-list `targetPoolIds`. -/
def targetPoolIds : List String :=
  ["db678df9-3281-4bc2-a8bb-01160ffd6d48",
   "c1ca08e4-d618-415e-ad63-fcec58705469",
   "8edfdf02-cdbb-43f7-bca6-954e5fe56813",
   "747c1d2a-c668-4682-b9f9-296708a3dd90",
   "80b8bf92-b953-4c20-98ea-c9653ef2bb98",
   "90bfb3c2-5d35-4959-a275-ba5085b08aa3",
   "107fb915-ab29-475b-b526-d0ed0d3e6110",
   "05a3d186-2d42-4e21-b1f0-68c079d22677",
   "1977885c-d5ae-4c9e-b4df-863b7e1578e6"]

/-- The route's `.filter(...).map(...)` over the upstream listing. -/
def filteredPools (data : List UpstreamPool) : List Pool :=
  (data.filter (fun p => targetPoolIds.contains p.pool)).map (fun p =>
    { pool := p.pool
      chain := p.chain
      project := p.project
      symbol := p.symbol.getD "Unknown"
      tvlUsd := some (p.tvlUsd.getD (JNum.num 0))
      apy := some (p.apy.getD (JNum.num 0))
      apyMean30d := none
      category := categoryOf p.project })

/-- Outcome of a route handler: an HTTP status with a payload or an error
body. -/
inductive ApiResult (α : Type) where
  | ok (status : Nat) (data : α)
  | err (status : Nat) (msg : String)
deriving DecidableEq

/-- The `GET` handler of `/api/pools`.  `upstream` is the outcome of the
top-level `/pools` fetch (`none` = failure), `hist pid` the outcome of the
per-pool `/chart/{pid}` fetch; the inner `try/catch` turns a per-pool
failure into `apyMean30d: null` for that pool only. -/
def GETpools (upstream : Option (List UpstreamPool))
    (hist : String → Option (List HistEntry)) (nowMs : Int) :
    ApiResult (List Pool) :=
  match upstream with
  | none => .err 500 "Failed to fetch pool data"
  | some data =>
    .ok 200 ((filteredPools data).map (fun pool =>
      match hist pool.pool with
      | none => { pool with apyMean30d := none }
      | some h => { pool with apyMean30d := apyMean30dRoute h nowMs }))

/-! ## The pool-detail page (`app/pool/[poolId]/page.tsx`) -/

/-- Raw item of the `/api/apy/{poolId}` response as the page sees it:
`timestamp` is `none` for an absent (falsy) timestamp string, `some` the
parsed instant in ms; `apy` is `none` for a null/undefined yield. -/
structure ApyItem where
  timestamp : Option Int
  apy : Option JNum

/-- A processed chart point: timestamp in seconds, yield value. -/
structure ApyPoint where
  timestamp : Int
  apy : JNum
deriving DecidableEq

/-- The page's `apyData` pipeline: keep items with a truthy timestamp and
a non-null, non-NaN yield, map to seconds, sort ascending by timestamp. -/
def processApyData (items : List ApyItem) : List ApyPoint :=
  (items.filterMap (fun it =>
    match it.timestamp, it.apy with
    | some t, some v => if v ≠ JNum.nan then some ⟨t / 1000, v⟩ else none
    | _, _ => none)).mergeSort (fun a b => a.timestamp ≤ b.timestamp)

/-- The page's 30-day trailing average: cutoff
`Math.floor(subMonths(new Date(), 1).getTime() / 1000)`, filter
`timestamp >= cutoff`, mean or `null`. -/
def apyMean30dPage (apyData : List ApyPoint) (nowMs : Int) : Option JNum :=
  let thirtyDaysAgo := subMonthsMs nowMs 1 / 1000
  let recentApyData := apyData.filter (fun p => decide (p.timestamp ≥ thirtyDaysAgo))
  if recentApyData.length > 0 then
    some ((recentApyData.foldl (fun s p => s.add p.apy) (JNum.num 0)).divNat
      recentApyData.length)
  else none

/-- A chart point with its month label, as pushed into `monthlyApy`. -/
structure MonthlySample where
  timestamp : Int
  apy : JNum
  month : MonthLabel
deriving DecidableEq

/-- The `find` predicate of the monthly loop for target month `i` months
before now: within ±3 days of the first-of-month instant and not older
than the 12-month window start. -/
def monthQual (nowMs : Int) (i : Int) (p : ApyPoint) : Bool :=
  decide (|p.timestamp - startOfMonthMs (subMonthsMs nowMs i) / 1000| ≤ 3 * 24 * 60 * 60 ∧
    p.timestamp ≥ subMonthsMs nowMs 12 / 1000)

/-- The monthly resampler: for `i = 11` down to `0`, find the first sample
qualifying for the target month `i` months before now and push it with a
label formatted from the sample's own timestamp; months with no match are
skipped. -/
def monthlyResample (apyData : List ApyPoint) (nowMs : Int) : List MonthlySample :=
  ([11, 10, 9, 8, 7, 6, 5, 4, 3, 2, 1, 0] : List Int).filterMap (fun i =>
    (apyData.find? (monthQual nowMs i)).map (fun p =>
      ⟨p.timestamp, p.apy, monthLabelOfSec p.timestamp⟩))

/-! ## Calendar correctness toolkit

`monthStartDay` and `monthIdx` are specification-side views: absolute month
index `12*y + (m-1)` and the day number of that month's first day. -/

/-- Day number of the first day of the month with absolute index `idx`. -/
def monthStartDay (idx : Int) : Int := civilDays (idx / 12) (idx % 12 + 1) 1

/-- Absolute month index of the month containing instant `t` (ms). -/
def monthIdx (t : Int) : Int :=
  12 * (civilFromDays (t / msPerDay)).1 + ((civilFromDays (t / msPerDay)).2.1 - 1)

theorem isLeap_iff (y : Int) :
    isLeap y = true ↔ (y % 4 = 0 ∧ (y % 100 ≠ 0 ∨ y % 400 = 0)) := by
  simp [isLeap]

theorem isLeap_era (e n : Int) : isLeap (400 * e + n) = isLeap n := by
  simp only [isLeap]
  have h4 : (400 * e + n) % 4 = n % 4 := by omega
  have h100 : (400 * e + n) % 100 = n % 100 := by omega
  have h400 : (400 * e + n) % 400 = n % 400 := by omega
  rw [h4, h100, h400]

theorem yoeDoy_recover (cc qq rr doy : Int)
    (hc0 : 0 ≤ cc) (hc1 : cc ≤ 3) (hq0 : 0 ≤ qq) (hq1 : qq ≤ 24)
    (hr0 : 0 ≤ rr) (hr1 : rr ≤ 3) (hd0 : 0 ≤ doy)
    (hd1 : doy ≤ 364 + (if rr = 3 ∧ (qq ≠ 24 ∨ cc = 3) then 1 else 0)) :
    yoeDoy (36524 * cc + 1461 * qq + 365 * rr + doy) = (100 * cc + 4 * qq + rr, doy) := by
  by_cases hlong : rr = 3 ∧ (qq ≠ 24 ∨ cc = 3)
  · rw [if_pos hlong] at hd1
    by_cases hover : 36524 * cc + 1461 * qq + 365 * rr + doy = 146096
    · have hx : cc = 3 ∧ qq = 24 ∧ rr = 3 ∧ doy = 365 := by omega
      obtain ⟨h1, h2, h3, h4⟩ := hx
      subst h1; subst h2; subst h3; subst h4
      decide
    · simp only [yoeDoy]
      have e1 : (36524 * cc + 1461 * qq + 365 * rr + doy) / 36524 = cc := by omega
      rw [e1, if_neg (by omega)]
      have e2 : (36524 * cc + 1461 * qq + 365 * rr + doy - 36524 * cc) / 1461 = qq := by omega
      rw [e2]
      by_cases h365 : doy = 365
      · have e3 : (36524 * cc + 1461 * qq + 365 * rr + doy - 36524 * cc - 1461 * qq) / 365 = 4 := by
          omega
        rw [e3, if_pos (by omega)]
        simp only [Prod.mk.injEq, true_and]
        omega
      · have e3 : (36524 * cc + 1461 * qq + 365 * rr + doy - 36524 * cc - 1461 * qq) / 365 = rr := by
          omega
        rw [e3, if_neg (by omega)]
        simp only [Prod.mk.injEq, true_and]
        omega
  · rw [if_neg hlong] at hd1
    simp only [yoeDoy]
    have e1 : (36524 * cc + 1461 * qq + 365 * rr + doy) / 36524 = cc := by omega
    rw [e1, if_neg (by omega)]
    have e2 : (36524 * cc + 1461 * qq + 365 * rr + doy - 36524 * cc) / 1461 = qq := by omega
    rw [e2]
    have e3 : (36524 * cc + 1461 * qq + 365 * rr + doy - 36524 * cc - 1461 * qq) / 365 = rr := by
      omega
    rw [e3, if_neg (by omega)]
    simp only [Prod.mk.injEq, true_and]
    omega

theorem yoeDoy_ysS (n doy : Int) (h0 : 0 ≤ n) (h1 : n ≤ 399) (h2 : 0 ≤ doy)
    (h3 : doy ≤ 364 + (if isLeap (n + 1) then 1 else 0)) :
    yoeDoy (ysS n + doy) = (n, doy) := by
  obtain ⟨cc, qq, rr, hn, hcb, hqb, hrb⟩ :
      ∃ cc qq rr, n = 100 * cc + 4 * qq + rr ∧ (0 ≤ cc ∧ cc ≤ 3) ∧
        (0 ≤ qq ∧ qq ≤ 24) ∧ (0 ≤ rr ∧ rr ≤ 3) :=
    ⟨n / 100, n % 100 / 4, n % 100 % 4, by omega, by omega, by omega, by omega⟩
  have hysS : ysS n = 36524 * cc + 1461 * qq + 365 * rr := by
    simp only [ysS]; omega
  have hleap : (isLeap (n + 1) = true) ↔ (rr = 3 ∧ (qq ≠ 24 ∨ cc = 3)) := by
    rw [isLeap_iff]; omega
  have h3' : doy ≤ 364 + (if rr = 3 ∧ (qq ≠ 24 ∨ cc = 3) then 1 else 0) := by
    by_cases hl : rr = 3 ∧ (qq ≠ 24 ∨ cc = 3)
    · rw [if_pos hl]
      rw [← hleap] at hl
      rw [if_pos hl] at h3
      exact h3
    · rw [if_neg hl]
      rw [← hleap] at hl
      rw [if_neg hl] at h3
      omega
  rw [hysS, hn]
  exact yoeDoy_recover cc qq rr doy hcb.1 hcb.2 hqb.1 hqb.2 hrb.1 hrb.2 h2 h3'

theorem cfd_enc (e n d mpc : Int) (hn0 : 0 ≤ n) (hn1 : n ≤ 399)
    (hmp0 : 0 ≤ mpc) (hmp1 : mpc ≤ 11) (hd : 1 ≤ d)
    (hUB : monthOff mpc + (d - 1) ≤ 364 + (if isLeap (n + 1) then 1 else 0))
    (hcap : mpc ≤ 10 → monthOff mpc + (d - 1) < monthOff (mpc + 1)) :
    civilFromDays (146097 * e + (ysS n + (monthOff mpc + (d - 1))) - 719468)
      = (400 * e + n + (if (if mpc ≤ 9 then mpc + 3 else mpc - 9) ≤ 2 then 1 else 0),
         if mpc ≤ 9 then mpc + 3 else mpc - 9, d) := by
  have hite : (0:Int) ≤ (if isLeap (n + 1) then 1 else 0) ∧
      (if isLeap (n + 1) then 1 else 0) ≤ (1:Int) := by split <;> omega
  have hoff : 0 ≤ monthOff mpc := by simp only [monthOff]; omega
  have hdoy365 : monthOff mpc + (d - 1) ≤ 365 := by omega
  have hysb : 0 ≤ ysS n ∧ ysS n ≤ 145731 := by simp only [ysS]; omega
  simp only [civilFromDays]
  have h1 : 146097 * e + (ysS n + (monthOff mpc + (d - 1))) - 719468 + 719468
      = 146097 * e + (ysS n + (monthOff mpc + (d - 1))) := by ring
  rw [h1]
  have h2 : (146097 * e + (ysS n + (monthOff mpc + (d - 1)))) / 146097 = e := by omega
  have h3 : (146097 * e + (ysS n + (monthOff mpc + (d - 1)))) % 146097
      = ysS n + (monthOff mpc + (d - 1)) := by omega
  rw [h2, h3, yoeDoy_ysS n (monthOff mpc + (d - 1)) hn0 hn1 (by omega) hUB]
  have hmp : (5 * (monthOff mpc + (d - 1)) + 2) / 153 = mpc := by
    simp only [monthOff] at *
    omega
  simp only [hmp]
  have hdd : monthOff mpc + (d - 1) - monthOff mpc + 1 = d := by ring
  rw [hdd]

theorem civilFromDays_civilDays (y m d : Int) (hm1 : 1 ≤ m) (hm2 : m ≤ 12)
    (hd1 : 1 ≤ d) (hd2 : d ≤ daysInMonth y m) :
    civilFromDays (civilDays y m d) = (y, m, d) := by
  obtain ⟨e, n, hEN, hn0, hn1⟩ :
      ∃ e n, y - (if m ≤ 2 then 1 else 0) = 400 * e + n ∧ 0 ≤ n ∧ n ≤ 399 :=
    ⟨(y - (if m ≤ 2 then 1 else 0)) / 400, (y - (if m ≤ 2 then 1 else 0)) % 400,
      by omega, by omega, by omega⟩
  have hnl : (0:Int) ≤ (if isLeap (n + 1) then 1 else 0) := by split <;> omega
  interval_cases m <;> simp only [daysInMonth] at hd2 <;> norm_num at hEN hd2 ⊢
  case _ =>
    have harg : civilDays y 1 d = 146097 * e + (ysS n + (monthOff 10 + (d - 1))) - 719468 := by
      simp only [civilDays, ysS, monthOff]; norm_num; omega
    rw [harg, cfd_enc e n d 10 hn0 hn1 (by omega) (by omega) hd1
      (by simp only [monthOff]; omega) (by simp only [monthOff]; omega)]
    norm_num
    omega
  case _ =>
    have harg : civilDays y 2 d = 146097 * e + (ysS n + (monthOff 11 + (d - 1))) - 719468 := by
      simp only [civilDays, ysS, monthOff]; norm_num; omega
    have hyl : isLeap y = isLeap (n + 1) := by
      rw [show y = 400 * e + (n + 1) by omega, isLeap_era]
    rw [hyl] at hd2
    have hUB : monthOff 11 + (d - 1) ≤ 364 + (if isLeap (n + 1) then 1 else 0) := by
      simp only [monthOff]
      split at hd2 <;> split <;> omega
    rw [harg, cfd_enc e n d 11 hn0 hn1 (by omega) (by omega) hd1 hUB (by omega)]
    norm_num
    omega
  case _ =>
    have harg : civilDays y 3 d = 146097 * e + (ysS n + (monthOff 0 + (d - 1))) - 719468 := by
      simp only [civilDays, ysS, monthOff]; norm_num; omega
    rw [harg, cfd_enc e n d 0 hn0 hn1 (by omega) (by omega) hd1
      (by simp only [monthOff]; omega) (by simp only [monthOff]; omega)]
    norm_num
    omega
  case _ =>
    have harg : civilDays y 4 d = 146097 * e + (ysS n + (monthOff 1 + (d - 1))) - 719468 := by
      simp only [civilDays, ysS, monthOff]; norm_num; omega
    rw [harg, cfd_enc e n d 1 hn0 hn1 (by omega) (by omega) hd1
      (by simp only [monthOff]; omega) (by simp only [monthOff]; omega)]
    norm_num
    omega
  case _ =>
    have harg : civilDays y 5 d = 146097 * e + (ysS n + (monthOff 2 + (d - 1))) - 719468 := by
      simp only [civilDays, ysS, monthOff]; norm_num; omega
    rw [harg, cfd_enc e n d 2 hn0 hn1 (by omega) (by omega) hd1
      (by simp only [monthOff]; omega) (by simp only [monthOff]; omega)]
    norm_num
    omega
  case _ =>
    have harg : civilDays y 6 d = 146097 * e + (ysS n + (monthOff 3 + (d - 1))) - 719468 := by
      simp only [civilDays, ysS, monthOff]; norm_num; omega
    rw [harg, cfd_enc e n d 3 hn0 hn1 (by omega) (by omega) hd1
      (by simp only [monthOff]; omega) (by simp only [monthOff]; omega)]
    norm_num
    omega
  case _ =>
    have harg : civilDays y 7 d = 146097 * e + (ysS n + (monthOff 4 + (d - 1))) - 719468 := by
      simp only [civilDays, ysS, monthOff]; norm_num; omega
    rw [harg, cfd_enc e n d 4 hn0 hn1 (by omega) (by omega) hd1
      (by simp only [monthOff]; omega) (by simp only [monthOff]; omega)]
    norm_num
    omega
  case _ =>
    have harg : civilDays y 8 d = 146097 * e + (ysS n + (monthOff 5 + (d - 1))) - 719468 := by
      simp only [civilDays, ysS, monthOff]; norm_num; omega
    rw [harg, cfd_enc e n d 5 hn0 hn1 (by omega) (by omega) hd1
      (by simp only [monthOff]; omega) (by simp only [monthOff]; omega)]
    norm_num
    omega
  case _ =>
    have harg : civilDays y 9 d = 146097 * e + (ysS n + (monthOff 6 + (d - 1))) - 719468 := by
      simp only [civilDays, ysS, monthOff]; norm_num; omega
    rw [harg, cfd_enc e n d 6 hn0 hn1 (by omega) (by omega) hd1
      (by simp only [monthOff]; omega) (by simp only [monthOff]; omega)]
    norm_num
    omega
  case _ =>
    have harg : civilDays y 10 d = 146097 * e + (ysS n + (monthOff 7 + (d - 1))) - 719468 := by
      simp only [civilDays, ysS, monthOff]; norm_num; omega
    rw [harg, cfd_enc e n d 7 hn0 hn1 (by omega) (by omega) hd1
      (by simp only [monthOff]; omega) (by simp only [monthOff]; omega)]
    norm_num
    omega
  case _ =>
    have harg : civilDays y 11 d = 146097 * e + (ysS n + (monthOff 8 + (d - 1))) - 719468 := by
      simp only [civilDays, ysS, monthOff]; norm_num; omega
    rw [harg, cfd_enc e n d 8 hn0 hn1 (by omega) (by omega) hd1
      (by simp only [monthOff]; omega) (by simp only [monthOff]; omega)]
    norm_num
    omega
  case _ =>
    have harg : civilDays y 12 d = 146097 * e + (ysS n + (monthOff 9 + (d - 1))) - 719468 := by
      simp only [civilDays, ysS, monthOff]; norm_num; omega
    rw [harg, cfd_enc e n d 9 hn0 hn1 (by omega) (by omega) hd1
      (by simp only [monthOff]; omega) (by simp only [monthOff]; omega)]
    norm_num
    omega

theorem daysInMonth_bounds (y m : Int) : 28 ≤ daysInMonth y m ∧ daysInMonth y m ≤ 31 := by
  simp only [daysInMonth]
  split_ifs <;> omega

theorem civilDays_d (y m d : Int) : civilDays y m d = civilDays y m 1 + (d - 1) := by
  simp only [civilDays]; ring

theorem monthStartDay_step (idx : Int) :
    28 ≤ monthStartDay (idx + 1) - monthStartDay idx ∧
    monthStartDay (idx + 1) - monthStartDay idx ≤ 31 := by
  obtain ⟨y, r, hid, hr0, hr1⟩ : ∃ y r, idx = 12 * y + r ∧ 0 ≤ r ∧ r ≤ 11 :=
    ⟨idx / 12, idx % 12, by omega, by omega, by omega⟩
  have h2 : idx % 12 = r := by omega
  interval_cases r <;>
    simp only [monthStartDay] <;>
    rw [show idx / 12 = y by omega] <;>
    rw [show (idx + 1) / 12 = (if idx % 12 = 11 then y + 1 else y) by split <;> omega,
        show (idx + 1) % 12 = (if idx % 12 = 11 then 0 else idx % 12 + 1) by split <;> omega] <;>
    rw [h2] <;>
    norm_num <;>
    simp only [civilDays, ysS, monthOff] <;>
    norm_num <;>
    omega

theorem monthStartDay_gap (k : Nat) (idx : Int) :
    monthStartDay idx + 28 * k ≤ monthStartDay (idx + k) ∧
    monthStartDay (idx + k) ≤ monthStartDay idx + 31 * k := by
  induction k with
  | zero => simp
  | succ j ih =>
    have hs := monthStartDay_step (idx + j)
    have hcast : (idx + (j + 1 : Nat)) = (idx + j) + 1 := by push_cast; ring
    rw [hcast]
    push_cast
    omega

theorem yoeDoy_snd_bounds (doe : Int) (h0 : 0 ≤ doe) (h1 : doe ≤ 146096) :
    0 ≤ (yoeDoy doe).2 ∧ (yoeDoy doe).2 ≤ 365 := by
  simp only [yoeDoy]
  split_ifs <;> omega

theorem civilFromDays_md (z : Int) :
    1 ≤ (civilFromDays z).2.1 ∧ (civilFromDays z).2.1 ≤ 12 ∧ 1 ≤ (civilFromDays z).2.2 := by
  simp only [civilFromDays]
  have hb := yoeDoy_snd_bounds ((z + 719468) % 146097) (by omega) (by omega)
  have hoff : monthOff ((5 * (yoeDoy ((z + 719468) % 146097)).2 + 2) / 153)
      ≤ (yoeDoy ((z + 719468) % 146097)).2 := by
    simp only [monthOff]
    omega
  split_ifs <;> simp_all <;> omega

theorem startOfMonthMs_eq (t : Int) :
    startOfMonthMs t = monthStartDay (monthIdx t) * msPerDay := by
  have hmd := civilFromDays_md (t / msPerDay)
  simp only [startOfMonthMs, monthStartDay, monthIdx]
  rw [show (12 * (civilFromDays (t / msPerDay)).1 + ((civilFromDays (t / msPerDay)).2.1 - 1)) / 12
      = (civilFromDays (t / msPerDay)).1 by omega,
    show (12 * (civilFromDays (t / msPerDay)).1 + ((civilFromDays (t / msPerDay)).2.1 - 1)) % 12 + 1
      = (civilFromDays (t / msPerDay)).2.1 by omega]

theorem subMonthsMs_decomp (t i : Int) :
    ∃ d2 tod, subMonthsMs t i = (monthStartDay (monthIdx t - i) + (d2 - 1)) * msPerDay + tod ∧
      1 ≤ d2 ∧ d2 ≤ 31 ∧ 0 ≤ tod ∧ tod < msPerDay ∧
      startOfMonthMs (subMonthsMs t i) = monthStartDay (monthIdx t - i) * msPerDay := by
  have hmd := civilFromDays_md (t / msPerDay)
  have hdim := daysInMonth_bounds ((monthIdx t - i) / 12) ((monthIdx t - i) % 12 + 1)
  refine ⟨min (civilFromDays (t / msPerDay)).2.2
      (daysInMonth ((monthIdx t - i) / 12) ((monthIdx t - i) % 12 + 1)), t % msPerDay,
    ?_, ?_, ?_, ?_, ?_, ?_⟩
  · simp only [subMonthsMs, monthStartDay, monthIdx]
    rw [civilDays_d]
  · exact le_min (by omega) (by omega)
  · exact le_trans (min_le_right _ _) (by omega)
  · simp only [msPerDay]; omega
  · simp only [msPerDay]; omega
  · have hq : subMonthsMs t i / msPerDay
        = civilDays ((monthIdx t - i) / 12) ((monthIdx t - i) % 12 + 1)
            (min (civilFromDays (t / msPerDay)).2.2
              (daysInMonth ((monthIdx t - i) / 12) ((monthIdx t - i) % 12 + 1))) := by
      simp only [subMonthsMs, monthIdx, msPerDay]
      omega
    simp only [startOfMonthMs]
    rw [hq, civilFromDays_civilDays _ _ _ (by omega) (by omega)
      (le_min (by omega) (by omega)) (min_le_right _ _)]
    simp only [monthStartDay]

/-! ## Spec-side renderings used by refinement claims -/

/-- Case-insensitive string equality, as the spec words it. -/
def ciEqual (a b : String) : Prop := lowerStr a = lowerStr b

instance (a b : String) : Decidable (ciEqual a b) :=
  inferInstanceAs (Decidable (lowerStr a = lowerStr b))

/-- The categorizer as §4.1 words it: case-insensitive exact match against
two fixed sets; first set to Lending, second to Liquid Staking, default
Yield Aggregator. -/
def categorySpec (project : String) : String :=
  if ciEqual project "aave-v3" ∨ ciEqual project "compound-v3" ∨ ciEqual project "maple" then
    "Lending"
  else if ciEqual project "lido" ∨ ciEqual project "binance-staked-eth" ∨
      ciEqual project "stader" then "Liquid Staking"
  else "Yield Aggregator"

/-- The monthly resampler as §4.3 words it: for each of the 12 target
months oldest first, the first sample in ascending scan order that
qualifies, omitting the month when none does. -/
def monthlyResampleSpec (apyData : List ApyPoint) (nowMs : Int) : List MonthlySample :=
  ([11, 10, 9, 8, 7, 6, 5, 4, 3, 2, 1, 0] : List Int).filterMap (fun i =>
    ((apyData.filter (monthQual nowMs i)).head?).map (fun p =>
      ⟨p.timestamp, p.apy, monthLabelOfSec p.timestamp⟩))

/-- `find?` returns the head of the filtered list. -/
theorem find?_eq_filter_head? {α : Type} (p : α → Bool) (l : List α) :
    l.find? p = (l.filter p).head? := by
  induction l with
  | nil => rfl
  | cons a l ih =>
    by_cases h : p a = true
    · rw [List.find?_cons_of_pos _ h, List.filter_cons, if_pos h, List.head?_cons]
    · rw [List.find?_cons_of_neg _ h, List.filter_cons, if_neg h, ih]

/-- On a list sorted by timestamp, `find?` returns a qualifying sample of
minimal timestamp. -/
theorem find?_minimal (p : ApyPoint → Bool) (l : List ApyPoint)
    (hs : l.Pairwise (fun a b => a.timestamp ≤ b.timestamp)) (x : ApyPoint)
    (hx : l.find? p = some x) :
    ∀ q ∈ l, p q = true → x.timestamp ≤ q.timestamp := by
  induction l with
  | nil => simp at hx
  | cons a l ih =>
    rw [List.pairwise_cons] at hs
    by_cases h : p a = true
    · simp only [List.find?_cons, h] at hx
      intro q hq _
      cases hx
      rcases List.mem_cons.1 hq with h1 | h1
      · rw [h1]
      · exact hs.1 q h1
    · simp only [Bool.not_eq_true] at h
      simp only [List.find?_cons, h] at hx
      intro q hq hpq
      rcases List.mem_cons.1 hq with h1 | h1
      · rw [h1] at hpq
        rw [hpq] at h
        cases h
      · exact ih hs.2 hx q h1 hpq

/-- C8: the pool categorizer agrees with the spec's case-insensitive
two-set rule on every string. -/
theorem categoryOf_eq_spec (s : String) : categoryOf s = categorySpec s := by
  simp only [categoryOf, categorySpec, ciEqual,
    (by decide : lowerStr "aave-v3" = "aave-v3"),
    (by decide : lowerStr "compound-v3" = "compound-v3"),
    (by decide : lowerStr "maple" = "maple"),
    (by decide : lowerStr "lido" = "lido"),
    (by decide : lowerStr "binance-staked-eth" = "binance-staked-eth"),
    (by decide : lowerStr "stader" = "stader")]

/-- C9: every record of a successful pools response carries a non-null
symbol, tvlUsd and apy, obtained from the upstream record by the
`?? "Unknown"` / `?? 0` replacements; only `apyMean30d` may be null. -/
theorem pools_response_non_null (data : List UpstreamPool)
    (hist : String → Option (List HistEntry)) (nowMs : Int) (l : List Pool)
    (hok : GETpools (some data) hist nowMs = ApiResult.ok 200 l) :
    ∀ r ∈ l, r.tvlUsd ≠ none ∧ r.apy ≠ none ∧
      ∃ up, up ∈ data ∧ up.pool = r.pool ∧ r.symbol = up.symbol.getD "Unknown" ∧
        r.tvlUsd = some (up.tvlUsd.getD (JNum.num 0)) ∧
        r.apy = some (up.apy.getD (JNum.num 0)) := by
  intro r hr
  simp only [GETpools, ApiResult.ok.injEq, true_and] at hok
  subst hok
  obtain ⟨pool, hpool, hgr⟩ := List.mem_map.1 hr
  simp only [filteredPools, List.mem_map, List.mem_filter] at hpool
  obtain ⟨up, ⟨hupin, hintarget⟩, hpu⟩ := hpool
  have hfields : pool.symbol = up.symbol.getD "Unknown" ∧
      pool.tvlUsd = some (up.tvlUsd.getD (JNum.num 0)) ∧
      pool.apy = some (up.apy.getD (JNum.num 0)) ∧ pool.pool = up.pool := by
    rw [← hpu]
    exact ⟨rfl, rfl, rfl, rfl⟩
  have hsame : r.symbol = pool.symbol ∧ r.tvlUsd = pool.tvlUsd ∧
      r.apy = pool.apy ∧ r.pool = pool.pool := by
    cases hh : hist pool.pool <;> rw [hh] at hgr <;> rw [← hgr] <;> exact ⟨rfl, rfl, rfl, rfl⟩
  refine ⟨?_, ?_, up, hupin, ?_, ?_, ?_, ?_⟩
  · rw [hsame.2.1, hfields.2.1]
    simp
  · rw [hsame.2.2.1, hfields.2.2.1]
    simp
  · rw [hsame.2.2.2, hfields.2.2.2]
  · rw [hsame.1, hfields.1]
  · rw [hsame.2.1, hfields.2.1]
  · rw [hsame.2.2.1, hfields.2.2.1]

/-- C7: failing the history fetch for one pool id degrades exactly that
pool's derived average to null; the response still succeeds with the full
filtered list, and every other pool's record is untouched. -/
theorem pools_failure_isolated (data : List UpstreamPool)
    (h1 h2 : String → Option (List HistEntry)) (nowMs : Int) (pid : String)
    (hagree : ∀ q, q ≠ pid → h1 q = h2 q) (hfail : h1 pid = none) :
    ∃ l2, GETpools (some data) h2 nowMs = ApiResult.ok 200 l2 ∧
      GETpools (some data) h1 nowMs = ApiResult.ok 200
        (l2.map (fun r => if r.pool = pid then { r with apyMean30d := none } else r)) ∧
      l2.length = (filteredPools data).length := by
  refine ⟨(filteredPools data).map (fun pool =>
      match h2 pool.pool with
      | none => { pool with apyMean30d := none }
      | some h => { pool with apyMean30d := apyMean30dRoute h nowMs }), by rfl, ?_, by simp⟩
  simp only [GETpools, List.map_map, ApiResult.ok.injEq, true_and]
  apply List.map_congr_left
  intro pool _
  by_cases hp : pool.pool = pid
  · rw [hp, hfail]
    cases hh2 : h2 pid <;> simp [Function.comp, hh2, hp]
  · rw [hagree pool.pool hp]
    cases hh2 : h2 pool.pool <;> simp [Function.comp, hh2, hp]

/-- C3 counterexample: the pools route does not exclude non-finite yields:
a NaN yield one day old makes the 30-day average NaN instead of being
dropped (current time 2024-08-16T00:00:00Z). -/
theorem route_mean_nan_counterexample :
    apyMean30dRoute [⟨some 1723680000000, JNum.nan⟩] 1723766400000 = some JNum.nan := by
  decide

/-- C3 amended: absent-timestamp samples are excluded by both
computations, and the pool-detail page drops null and NaN yields before
averaging, so no page sample carries a NaN yield; both functions are total
(they never throw). -/
theorem malformed_samples_excluded :
    (∀ (it : ApyItem) (items : List ApyItem),
      it.timestamp = none ∨ it.apy = none ∨ it.apy = some JNum.nan →
      processApyData (it :: items) = processApyData items) ∧
    (∀ (e : HistEntry) (es : List HistEntry) (nowMs : Int),
      e.timestamp = none → apyMean30dRoute (e :: es) nowMs = apyMean30dRoute es nowMs) ∧
    (∀ (items : List ApyItem) (p : ApyPoint), p ∈ processApyData items → p.apy ≠ JNum.nan) := by
  refine ⟨?_, ?_, ?_⟩
  · intro it items h
    obtain ⟨ts, apy⟩ := it
    simp only [processApyData, List.filterMap_cons]
    rcases h with h | h | h
    · simp only at h
      subst h
      rfl
    · simp only at h
      subst h
      cases ts <;> rfl
    · simp only at h
      subst h
      cases ts
      · rfl
      · simp
  · intro e es nowMs h
    obtain ⟨ts, apy⟩ := e
    simp only at h
    subst h
    simp [apyMean30dRoute, List.filter_cons]
  · intro items p hp
    simp only [processApyData, List.mem_mergeSort, List.mem_filterMap] at hp
    obtain ⟨it, _, hit⟩ := hp
    obtain ⟨ts, apy⟩ := it
    cases ts with
    | none => simp at hit
    | some t =>
      cases apy with
      | none => simp at hit
      | some v =>
        have hit2 : (if v ≠ JNum.nan then some (⟨t / 1000, v⟩ : ApyPoint) else none)
            = some p := hit
        by_cases hv : v = JNum.nan
        · rw [if_neg (by simp [hv])] at hit2
          cases hit2
        · rw [if_pos hv] at hit2
          injection hit2 with hit3
          rw [← hit3]
          exact hv

/-- C4 evaluation at the failing input: current time 2024-08-16T00:00:00Z,
one sample with yield 4 dated exactly 31 days earlier (2024-07-16).  The
pools route returns null as the claim states, but the pool-detail page's
`subMonths(now, 1)` cutoff lands exactly 31 days back (July has 31 days),
so the page includes the sample and returns a non-null average. -/
theorem page_mean_31_days :
    1723766400 - 1721088000 = 31 * 86400 ∧
    apyMean30dRoute [⟨some 1721088000000, JNum.num 4⟩] 1723766400000 = none ∧
    apyMean30dPage [⟨1721088000, JNum.num 4⟩] 1723766400000 ≠ none := by
  refine ⟨by norm_num, by decide, by decide⟩

/-- C1 evaluation at the failing input: a sample 30.5 days old lies
outside the trailing 30 days (the route correctly drops it and yields
null), yet the pool-detail page's one-calendar-month cutoff includes it
and returns a non-null average. -/
theorem page_mean_window_not_thirty_days :
    1721131200 < 1723766400 - 30 * 24 * 60 * 60 ∧
    apyMean30dRoute [⟨some 1721131200000, JNum.num 4⟩] 1723766400000 = none ∧
    apyMean30dPage [⟨1721131200, JNum.num 4⟩] 1723766400000 ≠ none := by
  refine ⟨by norm_num, by decide, by decide⟩

/-- C5 counterexample: with current time 2024-08-15T12:00:00Z and two
samples dated 2024-06-01 and 2024-06-29, the target month June selects
the June 1 sample and the target month July selects the June 29 sample
(within 3 days of July 1), and both entries are labelled June 2024. -/
theorem resample_duplicate_label :
    (monthlyResample [⟨1717200000, JNum.num 5⟩, ⟨1719619200, JNum.num 7⟩]
        1723723200000).map MonthlySample.month = [⟨2024, 6⟩, ⟨2024, 6⟩] ∧
    ¬ List.Pairwise (fun a b => a.month ≠ b.month)
      (monthlyResample [⟨1717200000, JNum.num 5⟩, ⟨1719619200, JNum.num 7⟩]
        1723723200000) := by
  constructor
  · decide
  · decide

/-- C5 amended: the monthly resampler never emits more than 12 entries
(but entries need not carry pairwise-distinct month labels). -/
theorem resample_length_le_12 (apyData : List ApyPoint) (nowMs : Int) :
    (monthlyResample apyData nowMs).length ≤ 12 := by
  simp only [monthlyResample]
  exact le_trans (List.length_filterMap_le _ _) (by simp)

/-- C2: on an ascending-sorted sample list the monthly resampler equals
the spec's rendering (12 target months oldest first, first qualifying
sample in scan order, month omitted when none qualifies), and the
selected sample is one of minimal timestamp among all qualifying samples
(earliest wins, not nearest); a month is omitted exactly when no sample
qualifies for it. -/
theorem resample_first_match (apyData : List ApyPoint) (nowMs : Int)
    (hsorted : apyData.Pairwise (fun a b => a.timestamp ≤ b.timestamp)) :
    monthlyResample apyData nowMs = monthlyResampleSpec apyData nowMs ∧
    (∀ i : Int, ∀ p, apyData.find? (monthQual nowMs i) = some p →
      monthQual nowMs i p = true ∧ p ∈ apyData ∧
      ∀ q ∈ apyData, monthQual nowMs i q = true → p.timestamp ≤ q.timestamp) ∧
    (∀ i : Int, apyData.find? (monthQual nowMs i) = none ↔
      ∀ p ∈ apyData, monthQual nowMs i p = false) := by
  refine ⟨?_, ?_, ?_⟩
  · simp only [monthlyResample, monthlyResampleSpec]
    congr 1
    funext i
    rw [find?_eq_filter_head?]
  · intro i p hfind
    exact ⟨List.find?_some hfind, List.mem_of_find?_eq_some hfind,
      find?_minimal _ _ hsorted p hfind⟩
  · intro i
    rw [List.find?_eq_none]
    constructor
    · intro h p hp
      have := h p hp
      simp_all
    · intro h p hp
      simp [h p hp]

/-- Witness for `resample_first_match` at a concrete sorted input. -/
theorem resample_first_match_witness :
    monthlyResample [⟨1717200000, JNum.num 5⟩, ⟨1719619200, JNum.num 7⟩] 1723723200000
      = monthlyResampleSpec [⟨1717200000, JNum.num 5⟩, ⟨1719619200, JNum.num 7⟩]
          1723723200000 :=
  (resample_first_match [⟨1717200000, JNum.num 5⟩, ⟨1719619200, JNum.num 7⟩]
    1723723200000 (by decide)).1

/-- Consecutive target-month starts are at least 28 days apart (in
seconds, through the `Math.floor(.../1000)` conversion). -/
theorem month_sep (t i : Int) (h1 : 0 ≤ i) :
    startOfMonthMs (subMonthsMs t i) / 1000 + 28 * 86400 * i ≤ startOfMonthMs t / 1000 := by
  obtain ⟨d2, tod, hsub, hd2a, hd2b, htoda, htodb, hstart⟩ := subMonthsMs_decomp t i
  rw [hstart, startOfMonthMs_eq t]
  have hgap := monthStartDay_gap i.toNat (monthIdx t - i)
  have hcast : ((i.toNat : Int)) = i := Int.toNat_of_nonneg h1
  rw [hcast, show monthIdx t - i + i = monthIdx t by ring] at hgap
  simp only [msPerDay]
  omega

/-- The 12-month window start never exceeds the current month's first
instant. -/
theorem window_le (t : Int) : subMonthsMs t 12 / 1000 ≤ startOfMonthMs t / 1000 := by
  obtain ⟨d2, tod, hsub, hd2a, hd2b, htoda, htodb, hstart⟩ := subMonthsMs_decomp t 12
  rw [startOfMonthMs_eq t, hsub]
  have hgap := monthStartDay_gap 12 (monthIdx t - 12)
  rw [show monthIdx t - 12 + ((12 : Nat) : Int) = monthIdx t by push_cast; ring] at hgap
  simp only [msPerDay] at *
  push_cast at hgap
  omega

/-- The month label of a month's first instant is that month. -/
theorem monthLabel_start (t : Int) :
    monthLabelOfSec (startOfMonthMs t / 1000)
      = ⟨(civilFromDays (t / msPerDay)).1, (civilFromDays (t / msPerDay)).2.1⟩ := by
  have hmd := civilFromDays_md (t / msPerDay)
  have hdim := daysInMonth_bounds ((monthIdx t) / 12) ((monthIdx t) % 12 + 1)
  rw [startOfMonthMs_eq t]
  simp only [monthLabelOfSec]
  rw [show monthStartDay (monthIdx t) * msPerDay / 1000 * 1000 / msPerDay
      = monthStartDay (monthIdx t) by simp only [msPerDay]; omega]
  have h2 : civilFromDays (monthStartDay (monthIdx t))
      = ((monthIdx t) / 12, (monthIdx t) % 12 + 1, 1) := by
    simp only [monthStartDay]
    exact civilFromDays_civilDays _ _ _ (by omega) (by omega) (by omega) (by omega)
  rw [h2]
  simp only [MonthLabel.mk.injEq, monthIdx]
  omega

/-- C6: a single sample dated exactly at the first instant of the current
month yields exactly one entry, selected by the current target month and
labelled with the current month; the 11 other target months select
nothing. -/
theorem resample_single_first_of_month (nowMs : Int) (a : JNum) :
    monthlyResample [⟨startOfMonthMs nowMs / 1000, a⟩] nowMs
      = [⟨startOfMonthMs nowMs / 1000, a,
          ⟨(civilFromDays (nowMs / msPerDay)).1, (civilFromDays (nowMs / msPerDay)).2.1⟩⟩] := by
  have hq0 : monthQual nowMs 0 ⟨startOfMonthMs nowMs / 1000, a⟩ = true := by
    simp only [monthQual, decide_eq_true_eq]
    constructor
    · obtain ⟨d2, tod, hsub, hd2a, hd2b, htoda, htodb, hstart⟩ := subMonthsMs_decomp nowMs 0
      rw [hstart, show monthIdx nowMs - 0 = monthIdx nowMs by ring, ← startOfMonthMs_eq nowMs]
      simp
    · exact window_le nowMs
  have hqi : ∀ i : Int, 1 ≤ i → i ≤ 11 →
      monthQual nowMs i ⟨startOfMonthMs nowMs / 1000, a⟩ = false := by
    intro i hi1 hi2
    have hsep := month_sep nowMs i (by omega)
    simp only [monthQual, decide_eq_false_iff_not, not_and_or]
    left
    intro hcon
    rw [abs_le] at hcon
    omega
  have h1 := hqi 1 (by norm_num) (by norm_num)
  have h2 := hqi 2 (by norm_num) (by norm_num)
  have h3 := hqi 3 (by norm_num) (by norm_num)
  have h4 := hqi 4 (by norm_num) (by norm_num)
  have h5 := hqi 5 (by norm_num) (by norm_num)
  have h6 := hqi 6 (by norm_num) (by norm_num)
  have h7 := hqi 7 (by norm_num) (by norm_num)
  have h8 := hqi 8 (by norm_num) (by norm_num)
  have h9 := hqi 9 (by norm_num) (by norm_num)
  have h10 := hqi 10 (by norm_num) (by norm_num)
  have h11 := hqi 11 (by norm_num) (by norm_num)
  simp only [monthlyResample, List.filterMap_cons, List.filterMap_nil, List.find?_cons,
    List.find?_nil, hq0, h1, h2, h3, h4, h5, h6, h7, h8, h9, h10, h11, Option.map_some',
    Option.map_none']
  rw [monthLabel_start nowMs]

/-- Exact month length between consecutive month starts. -/
theorem monthStartDay_step_eq (idx : Int) :
    monthStartDay (idx + 1) - monthStartDay idx = daysInMonth (idx / 12) (idx % 12 + 1) := by
  obtain ⟨y, r, hid, hr0, hr1⟩ : ∃ y r, idx = 12 * y + r ∧ 0 ≤ r ∧ r ≤ 11 :=
    ⟨idx / 12, idx % 12, by omega, by omega, by omega⟩
  have h2 : idx % 12 = r := by omega
  interval_cases r <;>
    simp only [monthStartDay, daysInMonth] <;>
    rw [show idx / 12 = y by omega] <;>
    rw [show (idx + 1) / 12 = (if idx % 12 = 11 then y + 1 else y) by split <;> omega,
        show (idx + 1) % 12 = (if idx % 12 = 11 then 0 else idx % 12 + 1) by split <;> omega] <;>
    rw [h2] <;>
    norm_num <;>
    simp only [civilDays, ysS, monthOff] <;>
    norm_num <;>
    first
      | omega
      | (split_ifs with hl <;> rw [isLeap_iff] at hl <;> omega)

/-- A timestamp up to 3 days before a month's first instant is labelled
with the preceding calendar month. -/
theorem label_before_month_start (ts idx : Int)
    (hlo : monthStartDay idx * 86400 - 259200 ≤ ts)
    (hhi : ts < monthStartDay idx * 86400) :
    monthLabelOfSec ts = ⟨(idx - 1) / 12, (idx - 1) % 12 + 1⟩ := by
  simp only [monthLabelOfSec]
  obtain ⟨j, hj1, hj3, hdays⟩ :
      ∃ j, 1 ≤ j ∧ j ≤ 3 ∧ ts * 1000 / msPerDay = monthStartDay idx - j := by
    refine ⟨monthStartDay idx - ts * 1000 / msPerDay, ?_, ?_, by ring⟩ <;>
      simp only [msPerDay] <;> omega
  rw [hdays]
  have hdim := daysInMonth_bounds ((idx - 1) / 12) ((idx - 1) % 12 + 1)
  have hstep := monthStartDay_step_eq (idx - 1)
  rw [show idx - 1 + 1 = idx by ring] at hstep
  have hckey : monthStartDay idx - j
      = civilDays ((idx - 1) / 12) ((idx - 1) % 12 + 1)
          (daysInMonth ((idx - 1) / 12) ((idx - 1) % 12 + 1) - j + 1) := by
    rw [civilDays_d]
    have hms : monthStartDay (idx - 1)
        = civilDays ((idx - 1) / 12) ((idx - 1) % 12 + 1) 1 := rfl
    omega
  rw [hckey, civilFromDays_civilDays _ _ _ (by omega) (by omega) (by omega) (by omega)]

/-- C10: every emitted entry's month label is formatted from the selected
sample's own timestamp (not from the target month); consequently a
selected sample dated before the target month's first instant (up to the
3-day tolerance) is labelled with the calendar month preceding the
target. -/
theorem resample_label_from_sample (apyData : List ApyPoint) (nowMs : Int) :
    (∀ s ∈ monthlyResample apyData nowMs, s.month = monthLabelOfSec s.timestamp) ∧
    (∀ i : Int, 0 ≤ i → ∀ p, apyData.find? (monthQual nowMs i) = some p →
      p.timestamp < startOfMonthMs (subMonthsMs nowMs i) / 1000 →
      monthLabelOfSec p.timestamp
        = ⟨(monthIdx nowMs - i - 1) / 12, (monthIdx nowMs - i - 1) % 12 + 1⟩) := by
  constructor
  · intro s hs
    simp only [monthlyResample, List.mem_filterMap] at hs
    obtain ⟨i, _, hsome⟩ := hs
    obtain ⟨p, _, hp⟩ := Option.map_eq_some'.1 hsome
    rw [← hp]
  · intro i hi0 p hfind hlt
    have hq := List.find?_some hfind
    simp only [monthQual, decide_eq_true_eq] at hq
    obtain ⟨d2, tod, hsub, hd2a, hd2b, htoda, htodb, hstart⟩ := subMonthsMs_decomp nowMs i
    rw [hstart] at hq hlt
    have hfom : monthStartDay (monthIdx nowMs - i) * msPerDay / 1000
        = monthStartDay (monthIdx nowMs - i) * 86400 := by
      simp only [msPerDay]; omega
    rw [hfom] at hq hlt
    have habs := abs_le.1 hq.1
    exact label_before_month_start p.timestamp (monthIdx nowMs - i) (by omega) hlt

/-- Witness for `resample_label_from_sample`: with current time
2024-08-15T12:00:00Z, the June 29 sample selected for target month July
is labelled with June. -/
theorem resample_label_from_sample_witness :
    monthLabelOfSec 1719619200
      = ⟨(monthIdx 1723723200000 - 1 - 1) / 12, (monthIdx 1723723200000 - 1 - 1) % 12 + 1⟩ :=
  (resample_label_from_sample [⟨1717200000, JNum.num 5⟩, ⟨1719619200, JNum.num 7⟩]
      1723723200000).2 1 (by norm_num) ⟨1719619200, JNum.num 7⟩ (by decide) (by decide)

/-- Witness for `malformed_samples_excluded`: an absent-timestamp item is
dropped by the page pipeline. -/
theorem malformed_samples_excluded_witness :
    processApyData [⟨none, some (JNum.num 1)⟩] = processApyData [] :=
  malformed_samples_excluded.1 ⟨none, some (JNum.num 1)⟩ [] (Or.inl rfl)

/-- Witness for `pools_failure_isolated`: one allow-listed pool whose
history fetch fails in the first run and succeeds (empty series) in the
second. -/
theorem pools_failure_isolated_witness :
    ∃ l2, GETpools
        (some [⟨"db678df9-3281-4bc2-a8bb-01160ffd6d48", "Ethereum", "aave-v3",
          none, none, none⟩])
        (fun _ => some []) 0 = ApiResult.ok 200 l2 ∧
      GETpools
        (some [⟨"db678df9-3281-4bc2-a8bb-01160ffd6d48", "Ethereum", "aave-v3",
          none, none, none⟩])
        (fun q => if q = "db678df9-3281-4bc2-a8bb-01160ffd6d48" then none else some []) 0
        = ApiResult.ok 200
          (l2.map (fun r =>
            if r.pool = "db678df9-3281-4bc2-a8bb-01160ffd6d48" then
              { r with apyMean30d := none }
            else r)) ∧
      l2.length = (filteredPools
        [⟨"db678df9-3281-4bc2-a8bb-01160ffd6d48", "Ethereum", "aave-v3",
          none, none, none⟩]).length :=
  pools_failure_isolated
    [⟨"db678df9-3281-4bc2-a8bb-01160ffd6d48", "Ethereum", "aave-v3", none, none, none⟩]
    (fun q => if q = "db678df9-3281-4bc2-a8bb-01160ffd6d48" then none else some [])
    (fun _ => some []) 0 "db678df9-3281-4bc2-a8bb-01160ffd6d48"
    (fun q hq => by simp [hq]) (by simp)

/-- Witness for `pools_response_non_null`: an upstream record with null
symbol, tvlUsd and apy is returned with "Unknown" and zeros. -/
theorem pools_response_non_null_witness :
    (⟨"db678df9-3281-4bc2-a8bb-01160ffd6d48", "Ethereum", "aave-v3", "Unknown",
        some (JNum.num 0), some (JNum.num 0), none, "Lending"⟩ : Pool).tvlUsd ≠ none ∧
    (⟨"db678df9-3281-4bc2-a8bb-01160ffd6d48", "Ethereum", "aave-v3", "Unknown",
        some (JNum.num 0), some (JNum.num 0), none, "Lending"⟩ : Pool).apy ≠ none ∧
    ∃ up, up ∈ [(⟨"db678df9-3281-4bc2-a8bb-01160ffd6d48", "Ethereum", "aave-v3",
        none, none, none⟩ : UpstreamPool)] ∧
      up.pool = (⟨"db678df9-3281-4bc2-a8bb-01160ffd6d48", "Ethereum", "aave-v3", "Unknown",
        some (JNum.num 0), some (JNum.num 0), none, "Lending"⟩ : Pool).pool ∧
      (⟨"db678df9-3281-4bc2-a8bb-01160ffd6d48", "Ethereum", "aave-v3", "Unknown",
        some (JNum.num 0), some (JNum.num 0), none, "Lending"⟩ : Pool).symbol
        = up.symbol.getD "Unknown" ∧
      (⟨"db678df9-3281-4bc2-a8bb-01160ffd6d48", "Ethereum", "aave-v3", "Unknown",
        some (JNum.num 0), some (JNum.num 0), none, "Lending"⟩ : Pool).tvlUsd
        = some (up.tvlUsd.getD (JNum.num 0)) ∧
      (⟨"db678df9-3281-4bc2-a8bb-01160ffd6d48", "Ethereum", "aave-v3", "Unknown",
        some (JNum.num 0), some (JNum.num 0), none, "Lending"⟩ : Pool).apy
        = some (up.apy.getD (JNum.num 0)) :=
  pools_response_non_null
    [⟨"db678df9-3281-4bc2-a8bb-01160ffd6d48", "Ethereum", "aave-v3", none, none, none⟩]
    (fun _ => none) 0
    [⟨"db678df9-3281-4bc2-a8bb-01160ffd6d48", "Ethereum", "aave-v3", "Unknown",
      some (JNum.num 0), some (JNum.num 0), none, "Lending"⟩]
    (by decide) _ (List.mem_singleton.2 rfl)
